import Mathlib

/-!
Shallow embedding of the TierDrop state-synchronization engine
(src/zt/poller.rs, src/zt/models.rs) and proofs about it.

Rust strings are modelled at the byte level (`RStr` is the list of UTF-8
bytes), because the source slices strings by byte index, an operation that
panics when a bound is not a character boundary.  A Rust function that can
panic is embedded with result type `Except Unit _`, `Except.error ()`
standing for the panic.
-/

namespace TierDrop

/-- Bytes of a UTF-8 encoded Rust `String` / `str` value, each in `0..256`. -/
abbrev RStr := List Nat

/-- UTF-8 bytes of an ASCII string literal (for ASCII characters the code
point equals the single byte). -/
def asciiB (s : String) : RStr := s.data.map Char.toNat

/-- Rust `str::is_char_boundary` on the UTF-8 byte sequence: true at both
ends and at any byte that is not a continuation byte (`0x80..0xC0`). -/
def isCharBoundary (s : RStr) (i : Nat) : Bool :=
  if i = 0 then true
  else if i = s.length then true
  else if h : i < s.length then
    decide (s.get ⟨i, h⟩ < 128) || decide (192 ≤ s.get ⟨i, h⟩)
  else false

/-- Rust string slicing `s[a..b]`: the byte subrange when the range is valid
and both bounds are character boundaries, otherwise a panic. -/
def strSlice (s : RStr) (a b : Nat) : Except Unit RStr :=
  if a ≤ b ∧ b ≤ s.length ∧ isCharBoundary s a = true ∧ isCharBoundary s b = true then
    Except.ok ((s.drop a).take (b - a))
  else Except.error ()

instance {ε α : Type} [DecidableEq ε] [DecidableEq α] : DecidableEq (Except ε α) := fun x y =>
  match x, y with
  | Except.ok a, Except.ok b =>
    if h : a = b then isTrue (by rw [h]) else isFalse (by intro hc; cases hc; exact h rfl)
  | Except.error a, Except.error b =>
    if h : a = b then isTrue (by rw [h]) else isFalse (by intro hc; cases hc; exact h rfl)
  | Except.ok _, Except.error _ => isFalse (by intro hc; cases hc)
  | Except.error _, Except.ok _ => isFalse (by intro hc; cases hc)

/-- Value of an ASCII hex digit byte (0-9, a-f, A-F). -/
def hexDigitVal? (b : Nat) : Option Nat :=
  if 48 ≤ b ∧ b ≤ 57 then some (b - 48)
  else if 97 ≤ b ∧ b ≤ 102 then some (b - 87)
  else if 65 ≤ b ∧ b ≤ 70 then some (b - 55)
  else none

/-- Whether a byte is an ASCII hex digit. -/
def isHexDigit (b : Nat) : Bool := (hexDigitVal? b).isSome

/-- Value of a nonempty run of hex digits; `none` if empty or any byte is not
a hex digit. -/
def hexRunVal? (s : RStr) : Option Nat :=
  if s.isEmpty then none
  else s.foldl (fun acc b =>
    match acc, hexDigitVal? b with
    | some v, some d => some (16 * v + d)
    | _, _ => none) (some 0)

/-- Rust `u8::from_str_radix(s, 16)`: an optional sign followed by at least
one hex digit; with a minus sign only the value zero parses (unsigned
underflow otherwise); values that do not fit in `u8` are errors. -/
def u8FromStrRadix16 (s : RStr) : Option Nat :=
  match s with
  | 43 :: rest =>
    match hexRunVal? rest with
    | some v => if v < 256 then some v else none
    | none => none
  | 45 :: rest =>
    match hexRunVal? rest with
    | some 0 => some 0
    | _ => none
  | _ =>
    match hexRunVal? s with
    | some v => if v < 256 then some v else none
    | none => none

/-- Rust formatting of a byte value with format specifier 02x: two lowercase
hex digit bytes (the source only applies it to `u8` values). -/
def hexDigitChar (d : Nat) : Nat := if d < 10 then 48 + d else 87 + d

/-- Two-lowercase-hex-digit rendering of a byte value. -/
def toHex2 (n : Nat) : RStr := [hexDigitChar (n / 16), hexDigitChar (n % 16)]

/-- Every byte is ASCII (single-byte UTF-8). -/
def allAscii (s : RStr) : Bool := s.all (fun b => b < 128)

/-- Every byte is an ASCII hex digit. -/
def allHex (s : RStr) : Bool := s.all isHexDigit

/-- Lexicographic byte-string order (Rust `Ord` on `str`): `a ≤ b`. -/
def bytesLe : RStr → RStr → Bool
  | [], _ => true
  | _ :: _, [] => false
  | a :: xs, b :: ys => if a < b then true else if b < a then false else bytesLe xs ys

/-- Strict lexicographic byte-string order: `a < b`. -/
def bytesLt (a b : RStr) : Bool := bytesLe a b && !(bytesLe b a)

/-- Model of `NodeStatus` (src/zt/models.rs).  The opaque JSON `config` blob is
modelled by its serialized bytes; no claim interprets it. -/
structure NodeStatus where
  address : Option RStr
  public_identity : Option RStr
  online : Option Bool
  tcp_fallback_active : Option Bool
  version : Option RStr
  clock : Option Int
  config : RStr
deriving DecidableEq, Repr

/-- Model of `V4AssignMode` (src/zt/models.rs). -/
structure V4AssignMode where
  zt : Bool
deriving DecidableEq, Repr

/-- Model of `V6AssignMode` (src/zt/models.rs). -/
structure V6AssignMode where
  sixplane : Bool
  rfc4193 : Bool
  zt : Bool
deriving DecidableEq, Repr

/-- Model of `ControllerRoute` (src/zt/models.rs). -/
structure ControllerRoute where
  target : Option RStr
  via : Option RStr
deriving DecidableEq, Repr

/-- Model of `IpAssignmentPool` (src/zt/models.rs). -/
structure IpAssignmentPool where
  ip_range_start : Option RStr
  ip_range_end : Option RStr
deriving DecidableEq, Repr

/-- Model of `DnsConfig` (src/zt/models.rs). -/
structure DnsConfig where
  domain : RStr
  servers : List RStr
deriving DecidableEq, Repr

/-- Model of `ControllerNetwork` (src/zt/models.rs).  `private` is a Lean keyword, so
that field is named `private_flag`; `f64` timestamps are modelled as
integers and the opaque rule/capability/tag JSON blobs by their serialized
bytes - no claim interprets either. -/
structure ControllerNetwork where
  id : Option RStr
  nwid : Option RStr
  name : Option RStr
  private_flag : Option Bool
  enable_broadcast : Option Bool
  v4_assign_mode : Option V4AssignMode
  v6_assign_mode : Option V6AssignMode
  mtu : Option Nat
  multicast_limit : Option Nat
  creation_time : Option Int
  revision : Option Nat
  routes : List ControllerRoute
  ip_assignment_pools : List IpAssignmentPool
  rules : List RStr
  capabilities : List RStr
  tags : List RStr
  dns : DnsConfig
deriving DecidableEq, Repr

/-- Model of `ControllerMember` (src/zt/models.rs).  `f64` timestamps are modelled as
integers; no claim depends on their arithmetic. -/
structure ControllerMember where
  id : Option RStr
  address : Option RStr
  nwid : Option RStr
  authorized : Option Bool
  active_bridge : Option Bool
  identity : Option RStr
  ip_assignments : List RStr
  revision : Option Nat
  v_major : Option Int
  v_minor : Option Int
  v_rev : Option Int
  v_proto : Option Int
  no_auto_assign_ips : Bool
  creation_time : Option Int
  last_authorized_time : Option Int
  last_deauthorized_time : Option Int
deriving DecidableEq, Repr

/-- The all-`None` / empty member, Rust `ControllerMember::default()`. -/
def emptyMember : ControllerMember :=
  ⟨none, none, none, none, none, none, [], none, none, none, none, none,
   false, none, none, none⟩

/-- Model of `ControllerMember::display_id`: the member's `address` field, else its
`id` field, else the literal string `unknown`. -/
def ControllerMember.display_id (m : ControllerMember) : RStr :=
  (m.address.or m.id).getD (asciiB "unknown")

/-- Model of `ControllerMember::rfc4193_address` with Rust panics made explicit:
`Except.error ()` is a byte-slice panic, the inner `Option` is the
function's own result (`None` = not computable). -/
def ControllerMember.rfc4193_address (m : ControllerMember) :
    Except Unit (Option RStr) :=
  match m.nwid with
  | none => Except.ok none
  | some nwid =>
    match m.address.or m.id with
    | none => Except.ok none
    | some node =>
      if nwid.length ≠ 16 ∨ node.length ≠ 10 then Except.ok none
      else
        let full := asciiB "fd" ++ nwid ++ asciiB "9993" ++ node
        match (List.range 8).mapM (fun i => strSlice full (i * 4) (i * 4 + 4)) with
        | Except.error e => Except.error e
        | Except.ok parts => Except.ok (some (List.intercalate (asciiB ":") parts))

/-- Model of `ControllerMember::sixplane_address` with Rust panics made explicit.
The source indexes `nwid_bytes[i]` only after checking the length is 8, so
the `getD` defaults never fire. -/
def ControllerMember.sixplane_address (m : ControllerMember) :
    Except Unit (Option RStr) :=
  match m.nwid with
  | none => Except.ok none
  | some nwid =>
    match m.address.or m.id with
    | none => Except.ok none
    | some node =>
      if nwid.length ≠ 16 ∨ node.length ≠ 10 then Except.ok none
      else
        match (List.range 8).foldr
            (fun i acc => do
              let s ← strSlice nwid (i * 2) (i * 2 + 2)
              let rest ← acc
              pure (match u8FromStrRadix16 s with
                | some v => v :: rest
                | none => rest))
            (Except.ok []) with
        | Except.error e => Except.error e
        | Except.ok nwid_bytes =>
          if nwid_bytes.length ≠ 8 then Except.ok none
          else
            let xored := (List.range 4).map (fun i =>
              toHex2 ((nwid_bytes.getD i 0) ^^^ (nwid_bytes.getD (i + 4) 0)))
            let full := asciiB "fc" ++ xored.flatten ++ node ++ asciiB "000000000001"
            match (List.range 8).mapM (fun i => strSlice full (i * 4) (i * 4 + 4)) with
            | Except.error e => Except.error e
            | Except.ok parts => Except.ok (some (List.intercalate (asciiB ":") parts))

/-- Member map of the snapshot: Rust `HashMap<String, Vec<ControllerMember>>`
modelled as an association list where the most recent insertion comes first;
lookups see the most recent binding, matching `HashMap::insert` overwrite
semantics. -/
abbrev MemberMap := List (RStr × List ControllerMember)

/-- Lookup of a network id in the member map (newest binding wins). -/
def mapLookup (k : RStr) : MemberMap → Option (List ControllerMember)
  | [] => none
  | p :: rest => if p.1 = k then some p.2 else mapLookup k rest

/-- Model of `HashMap::insert`: the new binding shadows any previous one. -/
def mapInsert (k : RStr) (v : List ControllerMember) (m : MemberMap) : MemberMap :=
  (k, v) :: m

/-- Model of `ZtState` (src/zt/models.rs): the snapshot the poller assembles every
cycle.  `SystemTime` is modelled as a natural number. -/
structure ZtState where
  status : Option NodeStatus
  controller_networks : List ControllerNetwork
  controller_members : MemberMap
  last_updated : Option Nat
  error : Option RStr
deriving DecidableEq, Repr

/-- One cycle's remote-call outcomes: a deterministic record of what every
`ZtClient` call and every spawned-task join would produce during this cycle.
The member-id listing returns its HashMap keys in an arbitrary iteration
order, so that order is part of the oracle; `networkJoin` / `memberJoin`
are false when the corresponding spawned task fails to join. -/
structure RemoteCycle where
  statusRes : Except RStr NodeStatus
  networkIdsRes : Except RStr (List RStr)
  networkBody : RStr → Except RStr ControllerNetwork
  memberIds : RStr → Except RStr (List RStr)
  memberBody : RStr → RStr → Except RStr ControllerMember
  networkJoin : RStr → Bool
  memberJoin : RStr → RStr → Bool

/-- The comparator `fetch_network` sorts members with:
`a.display_id().cmp(b.display_id())` is less-or-equal. -/
def memberLe (a b : ControllerMember) : Bool :=
  bytesLe a.display_id b.display_id

/-- The body of the per-member join loop in `fetch_network`: a member whose
task joined and whose body fetch succeeded is appended; everything else is
omitted (no placeholder). -/
def memberStep (r : RemoteCycle) (nwid : RStr) (acc : List ControllerMember)
    (mid : RStr) : List ControllerMember :=
  if r.memberJoin nwid mid then
    match r.memberBody nwid mid with
    | Except.ok m => acc ++ [m]
    | Except.error _ => acc
  else acc

/-- Model of `fetch_network` (src/zt/poller.rs): fetch one network's body and member
listing, then every member body; failed or unjoined member fetches are
omitted; the member list is sorted by `display_id` before being returned.
Member bodies are pushed in spawn order (the order of the id listing),
independent of completion order, then sorted with Rust's stable sort
(modelled by the stable `List.mergeSort`). -/
def fetch_network (r : RemoteCycle) (nwid : RStr) :
    RStr × Except RStr ControllerNetwork × List ControllerMember :=
  let nw_result := r.networkBody nwid
  let members :=
    match r.memberIds nwid with
    | Except.ok ids => (ids.foldl (memberStep r nwid) []).mergeSort memberLe
    | Except.error _ => []
  (nwid, nw_result, members)

/-- The member list `fetch_network` computes for one network. -/
def memberListOf (r : RemoteCycle) (nwid : RStr) : List ControllerMember :=
  (fetch_network r nwid).2.2

/-- The body of the per-network join loop in `poll_once`: a joined task
appends its network body to the network list on success and always inserts
its member list into the member map. -/
def pollStep (r : RemoteCycle) (acc : List ControllerNetwork × MemberMap)
    (nwid : RStr) : List ControllerNetwork × MemberMap :=
  if r.networkJoin nwid then
    let res := fetch_network r nwid
    (match res.2.1 with
     | Except.ok nw => acc.1 ++ [nw]
     | Except.error _ => acc.1,
     mapInsert res.1 res.2.2 acc.2)
  else acc

/-- Model of `poll_once` (src/zt/poller.rs): one full polling cycle as a function of
the cycle's remote oracle and the wall-clock timestamp (`SystemTime::now()`
at snapshot assembly). -/
def poll_once (r : RemoteCycle) (now : Nat) : ZtState :=
  let error : Option RStr :=
    match r.statusRes with
    | Except.ok _ => none
    | Except.error e => some e
  let status : Option NodeStatus :=
    match r.statusRes with
    | Except.ok s => some s
    | Except.error _ => none
  let ctrl_nw_ids : List RStr :=
    match r.networkIdsRes with
    | Except.ok ids => ids
    | Except.error _ => []
  let pair : List ControllerNetwork × MemberMap :=
    if ctrl_nw_ids.isEmpty then ([], [])
    else ctrl_nw_ids.foldl (pollStep r) ([], [])
  { status := status
    controller_networks := pair.1
    controller_members := pair.2
    last_updated := some now
    error := error }

/-- Model of `SseEvent` (src/sse.rs): the three change-notification axes. -/
inductive SseEvent
  | statusChanged
  | controllerNetworksChanged
  | controllerMembersChanged
deriving DecidableEq, Repr

/-- The change events `start_poller` broadcasts after comparing the candidate
snapshot against the live one (src/zt/poller.rs lines 33-61): status and
error changes share the first axis; `last_updated` is never compared. -/
def cycleEvents (old cand : ZtState) : List SseEvent :=
  let status_changed := cand.status ≠ old.status
  let error_changed := cand.error ≠ old.error
  let ctrl_networks_changed := cand.controller_networks ≠ old.controller_networks
  let ctrl_members_changed := cand.controller_members ≠ old.controller_members
  (if status_changed ∨ error_changed then [SseEvent.statusChanged] else []) ++
  (if ctrl_networks_changed then [SseEvent.controllerNetworksChanged] else []) ++
  (if ctrl_members_changed then [SseEvent.controllerMembersChanged] else [])

/-- The network ids a cycle iterates over: the listing's ids on success,
empty on failure. -/
def okIds (r : RemoteCycle) : List RStr :=
  match r.networkIdsRes with
  | Except.ok ids => ids
  | Except.error _ => []

/-- Byte `i` of a 16-hex-digit network identifier, per the spec's "parse the
network id as 8 raw bytes" (the value of hex digits `2i` and `2i+1`). -/
def nwidByte (nwid : RStr) (i : Nat) : Nat :=
  16 * (hexDigitVal? (nwid.getD (2 * i) 0)).getD 0 +
    (hexDigitVal? (nwid.getD (2 * i + 1) 0)).getD 0

/-- Derivation A as a function of the two identifier strings involved (a
refinement helper: the member method is this applied to the member's `nwid`
and `address`-or-`id` fields). -/
def rfc4193_of (nwid? node? : Option RStr) : Except Unit (Option RStr) :=
  match nwid? with
  | none => Except.ok none
  | some nwid =>
    match node? with
    | none => Except.ok none
    | some node =>
      if nwid.length ≠ 16 ∨ node.length ≠ 10 then Except.ok none
      else
        let full := asciiB "fd" ++ nwid ++ asciiB "9993" ++ node
        match (List.range 8).mapM (fun i => strSlice full (i * 4) (i * 4 + 4)) with
        | Except.error e => Except.error e
        | Except.ok parts => Except.ok (some (List.intercalate (asciiB ":") parts))

/-- Derivation B as a function of the two identifier strings involved (a
refinement helper, see `rfc4193_of`). -/
def sixplane_of (nwid? node? : Option RStr) : Except Unit (Option RStr) :=
  match nwid? with
  | none => Except.ok none
  | some nwid =>
    match node? with
    | none => Except.ok none
    | some node =>
      if nwid.length ≠ 16 ∨ node.length ≠ 10 then Except.ok none
      else
        match (List.range 8).foldr
            (fun i acc => do
              let s ← strSlice nwid (i * 2) (i * 2 + 2)
              let rest ← acc
              pure (match u8FromStrRadix16 s with
                | some v => v :: rest
                | none => rest))
            (Except.ok []) with
        | Except.error e => Except.error e
        | Except.ok nwid_bytes =>
          if nwid_bytes.length ≠ 8 then Except.ok none
          else
            let xored := (List.range 4).map (fun i =>
              toHex2 ((nwid_bytes.getD i 0) ^^^ (nwid_bytes.getD (i + 4) 0)))
            let full := asciiB "fc" ++ xored.flatten ++ node ++ asciiB "000000000001"
            match (List.range 8).mapM (fun i => strSlice full (i * 4) (i * 4 + 4)) with
            | Except.error e => Except.error e
            | Except.ok parts => Except.ok (some (List.intercalate (asciiB ":") parts))

/-- A default `NodeStatus` value for concrete cycles in the proofs below. -/
def statusA : NodeStatus :=
  { address := some (asciiB "abcdef0123")
    public_identity := none
    online := some true
    tcp_fallback_active := some false
    version := some (asciiB "1.14.0")
    clock := some 1
    config := asciiB "null" }

/-- Concrete cycle oracle for the member-enumeration-failure scenario: one
network whose member-id listing fails. -/
def rC1 : RemoteCycle :=
  { statusRes := Except.ok statusA
    networkIdsRes := Except.ok [asciiB "net1"]
    networkBody := fun _ => Except.error (asciiB "nwfail")
    memberIds := fun _ => Except.error (asciiB "memfail")
    memberBody := fun _ _ => Except.error (asciiB "unreached")
    networkJoin := fun _ => true
    memberJoin := fun _ _ => true }

/-- Concrete cycle oracle with no networks and a healthy status, used to
compare two cycles over unchanged remote state. -/
def rC3 : RemoteCycle :=
  { statusRes := Except.ok statusA
    networkIdsRes := Except.ok []
    networkBody := fun _ => Except.error (asciiB "none")
    memberIds := fun _ => Except.error (asciiB "none")
    memberBody := fun _ _ => Except.error (asciiB "none")
    networkJoin := fun _ => true
    memberJoin := fun _ _ => true }

/-- Concrete cycle oracle producing two members that both lack `address` and
`id` (so both display as `unknown`) but differ in their `authorized` flag. -/
def rC4 : RemoteCycle :=
  { statusRes := Except.ok statusA
    networkIdsRes := Except.ok [asciiB "netX"]
    networkBody := fun _ => Except.error (asciiB "nwfail")
    memberIds := fun _ => Except.ok [asciiB "m0", asciiB "m1"]
    memberBody := fun _ mid =>
      if mid = asciiB "m0" then Except.ok { emptyMember with authorized := some true }
      else Except.ok { emptyMember with authorized := some false }
    networkJoin := fun _ => true
    memberJoin := fun _ _ => true }

/-- Concrete cycle oracle whose status call fails and whose network-id
listing also fails. -/
def rC8 : RemoteCycle :=
  { statusRes := Except.error (asciiB "status down")
    networkIdsRes := Except.error (asciiB "controller off")
    networkBody := fun _ => Except.error (asciiB "none")
    memberIds := fun _ => Except.error (asciiB "none")
    memberBody := fun _ _ => Except.error (asciiB "none")
    networkJoin := fun _ => true
    memberJoin := fun _ _ => true }

/-- Concrete cycle oracle with one network of three enumerated members of
which exactly one member-body fetch fails. -/
def rC9 : RemoteCycle :=
  { statusRes := Except.ok statusA
    networkIdsRes := Except.ok [asciiB "netN"]
    networkBody := fun _ => Except.error (asciiB "nwfail")
    memberIds := fun _ => Except.ok [asciiB "ma", asciiB "mb", asciiB "mc"]
    memberBody := fun _ mid =>
      if mid = asciiB "mb" then Except.error (asciiB "member fetch failed")
      else Except.ok { emptyMember with id := some mid }
    networkJoin := fun _ => true
    memberJoin := fun _ _ => true }

/-- A member whose network id has byte length 16 but begins with a
three-byte UTF-8 character, so a group boundary falls inside a character. -/
def mC7 : ControllerMember :=
  { emptyMember with
    nwid := some ([226, 130, 172] ++ asciiB "0123456789123")
    address := some (asciiB "0123456789") }

/-- A member with a nine-character member id (wrong length). -/
def mC7short : ControllerMember :=
  { emptyMember with
    nwid := some (asciiB "8056c2e21c000001")
    address := some (asciiB "012345678") }

/-! ## Helper lemmas -/

theorem bytesLe_total (a : RStr) : ∀ b : RStr, (bytesLe a b || bytesLe b a) = true := by
  induction a with
  | nil => intro b; simp [bytesLe]
  | cons x xs ih =>
    intro b
    cases b with
    | nil => simp [bytesLe]
    | cons y ys =>
      by_cases hxy : x < y
      · have hyx : ¬ y < x := by omega
        simp [bytesLe, hxy, hyx]
      · by_cases hyx : y < x
        · simp [bytesLe, hxy, hyx]
        · simp [bytesLe, hxy, hyx, ih ys]

theorem bytesLe_trans :
    ∀ a b c : RStr, bytesLe a b = true → bytesLe b c = true → bytesLe a c = true := by
  intro a
  induction a with
  | nil => intro b c _ _; simp [bytesLe]
  | cons x xs ih =>
    intro b c hab hbc
    cases b with
    | nil => simp [bytesLe] at hab
    | cons y ys =>
      cases c with
      | nil => simp [bytesLe] at hbc
      | cons z zs =>
        simp only [bytesLe] at hab hbc ⊢
        by_cases hxy : x < y
        · by_cases hyz : y < z
          · have : x < z := by omega
            simp [this]
          · by_cases hzy : z < y
            · simp [hyz, hzy] at hbc
            · have hyz' : y = z := by omega
              have : x < z := by omega
              simp [this]
        · by_cases hyx : y < x
          · simp [hxy, hyx] at hab
          · have hxy' : x = y := by omega
            subst hxy'
            by_cases hyz : x < z
            · simp [hyz]
            · by_cases hzy : z < x
              · simp [hyz, hzy] at hbc
              · simp [hxy, hyx] at hab
                simp [hyz, hzy] at hbc
                simp [hyz, hzy, ih ys zs hab hbc]

theorem memberLe_total (a b : ControllerMember) : (memberLe a b || memberLe b a) = true :=
  bytesLe_total a.display_id b.display_id

theorem memberLe_trans (a b c : ControllerMember)
    (hab : memberLe a b = true) (hbc : memberLe b c = true) : memberLe a c = true :=
  bytesLe_trans a.display_id b.display_id c.display_id hab hbc

theorem isCharBoundary_of_ascii (s : RStr) (hs : allAscii s = true)
    (i : Nat) (hi : i ≤ s.length) : isCharBoundary s i = true := by
  unfold isCharBoundary
  split
  · rfl
  · split
    · rfl
    · rename_i h0 hlen
      split
      · rename_i h
        have hmem : s.get ⟨i, h⟩ ∈ s := List.get_mem s i h
        have hlt := List.all_eq_true.mp hs _ hmem
        simp only [decide_eq_true_eq, List.get_eq_getElem] at hlt
        simp [hlt]
      · omega

theorem strSlice_ascii (s : RStr) (hs : allAscii s = true) (a b : Nat)
    (hab : a ≤ b) (hb : b ≤ s.length) :
    strSlice s a b = Except.ok ((s.drop a).take (b - a)) := by
  unfold strSlice
  rw [if_pos]
  exact ⟨hab, hb, isCharBoundary_of_ascii s hs a (le_trans hab hb),
    isCharBoundary_of_ascii s hs b hb⟩

theorem mapM_ok_of_all {α β : Type} (f : α → Except Unit β) (g : α → β) :
    ∀ l : List α, (∀ x ∈ l, f x = Except.ok (g x)) →
      l.mapM f = Except.ok (l.map g) := by
  intro l
  induction l with
  | nil => intro _; rfl
  | cons x xs ih =>
    intro h
    rw [List.mapM_cons, h x (by simp), ih (fun y hy => h y (by simp [hy]))]
    rfl

theorem allAscii_append (s t : RStr) :
    allAscii (s ++ t) = (allAscii s && allAscii t) := by
  simp [allAscii]

theorem ascii_of_hexDigit (b : Nat) (h : isHexDigit b = true) : b < 128 := by
  simp only [isHexDigit, hexDigitVal?] at h
  split at h
  · omega
  · split at h
    · omega
    · split at h
      · omega
      · simp at h

theorem hexDigit_ge_48 (b : Nat) (h : isHexDigit b = true) : 48 ≤ b := by
  simp only [isHexDigit, hexDigitVal?] at h
  split at h
  · omega
  · split at h
    · omega
    · split at h
      · omega
      · simp at h

theorem hexDigitVal_lt (b : Nat) (h : isHexDigit b = true) :
    (hexDigitVal? b).getD 0 < 16 := by
  simp only [isHexDigit, hexDigitVal?] at h ⊢
  split
  · rename_i h1; simp; omega
  · split
    · rename_i h1 h2; simp; omega
    · split
      · rename_i h1 h2 h3; simp; omega
      · simp

theorem allAscii_of_allHex (s : RStr) (h : allHex s = true) : allAscii s = true := by
  rw [allAscii, List.all_eq_true]
  intro x hx
  have := List.all_eq_true.mp h x hx
  simp only [decide_eq_true_eq]
  exact ascii_of_hexDigit x this

theorem getD_hex (s : RStr) (h : allHex s = true) (i : Nat) (hi : i < s.length) :
    isHexDigit (s.getD i 0) = true := by
  rw [List.getD_eq_getElem s 0 hi]
  exact List.all_eq_true.mp h _ (List.getElem_mem hi)

theorem drop_take_two (s : RStr) (i : Nat) (h : i + 2 ≤ s.length) :
    (s.drop i).take 2 = [s.getD i 0, s.getD (i + 1) 0] := by
  rw [List.drop_eq_getElem_cons (l := s) (by omega : i < s.length)]
  rw [List.drop_eq_getElem_cons (l := s) (by omega : i + 1 < s.length)]
  rw [List.getD_eq_getElem s 0 (by omega : i < s.length)]
  rw [List.getD_eq_getElem s 0 (by omega : i + 1 < s.length)]
  rfl

theorem groups_ok (full : RStr) (h : allAscii full = true) (hl : full.length = 32) :
    (List.range 8).mapM (fun i => strSlice full (i * 4) (i * 4 + 4)) =
      Except.ok ((List.range 8).map (fun i => (full.drop (i * 4)).take 4)) := by
  apply mapM_ok_of_all
  intro i hi
  have hi8 : i < 8 := List.mem_range.mp hi
  rw [strSlice_ascii full h (i * 4) (i * 4 + 4) (by omega) (by omega)]
  have h4 : i * 4 + 4 - i * 4 = 4 := by omega
  rw [h4]

theorem hexRunVal_pair (a b va vb : Nat)
    (ha : hexDigitVal? a = some va) (hb : hexDigitVal? b = some vb) :
    hexRunVal? [a, b] = some (16 * va + vb) := by
  simp [hexRunVal?, ha, hb]

theorem u8_pair_hex (a b : Nat) (ha : isHexDigit a = true) (hb : isHexDigit b = true) :
    u8FromStrRadix16 [a, b] =
      some (16 * (hexDigitVal? a).getD 0 + (hexDigitVal? b).getD 0) := by
  have ha48 := hexDigit_ge_48 a ha
  obtain ⟨va, hva⟩ := Option.isSome_iff_exists.mp ha
  obtain ⟨vb, hvb⟩ := Option.isSome_iff_exists.mp hb
  have hva16 : va < 16 := by have := hexDigitVal_lt a ha; rw [hva] at this; simpa using this
  have hvb16 : vb < 16 := by have := hexDigitVal_lt b hb; rw [hvb] at this; simpa using this
  unfold u8FromStrRadix16
  split
  · rename_i rest heq
    exfalso
    have : a = 43 := (List.cons.injEq _ _ _ _ ▸ heq).1
    omega
  · rename_i rest heq
    exfalso
    have : a = 45 := (List.cons.injEq _ _ _ _ ▸ heq).1
    omega
  · rw [hexRunVal_pair a b va vb hva hvb]
    have : 16 * va + vb < 256 := by omega
    simp [this, hva, hvb]

/-- Expansion of the parse loop in `sixplane_address` over ASCII hex input:
it yields exactly the eight bytes of the network id. -/
theorem parse_fold_hex (nwid : RStr) (h16 : nwid.length = 16) (hhex : allHex nwid = true) :
    ∀ l : List Nat, (∀ i ∈ l, i * 2 + 2 ≤ 16) →
      (l.foldr (fun i acc => do
          let s ← strSlice nwid (i * 2) (i * 2 + 2)
          let rest ← acc
          pure (match u8FromStrRadix16 s with
            | some v => v :: rest
            | none => rest)) (Except.ok [])) =
        Except.ok (l.map (nwidByte nwid)) := by
  have hascii := allAscii_of_allHex nwid hhex
  intro l
  induction l with
  | nil => intro _; rfl
  | cons i xs ih =>
    intro hb
    have hi : i * 2 + 2 ≤ 16 := hb i (by simp)
    simp only [List.foldr_cons]
    rw [ih (fun j hj => hb j (by simp [hj]))]
    rw [strSlice_ascii nwid hascii (i * 2) (i * 2 + 2) (by omega) (by omega)]
    have h2 : i * 2 + 2 - i * 2 = 2 := by omega
    rw [h2, drop_take_two nwid (i * 2) (by omega)]
    have hha : isHexDigit (nwid.getD (i * 2) 0) = true :=
      getD_hex nwid hhex (i * 2) (by omega)
    have hhb : isHexDigit (nwid.getD (i * 2 + 1) 0) = true :=
      getD_hex nwid hhex (i * 2 + 1) (by omega)
    have harith : nwidByte nwid i =
        16 * (hexDigitVal? (nwid.getD (i * 2) 0)).getD 0 +
          (hexDigitVal? (nwid.getD (i * 2 + 1) 0)).getD 0 := by
      simp [nwidByte, Nat.mul_comm 2 i]
    show Except.ok (ε := Unit)
        (match u8FromStrRadix16 [nwid.getD (i * 2) 0, nwid.getD (i * 2 + 1) 0] with
          | some v => v :: xs.map (nwidByte nwid)
          | none => xs.map (nwidByte nwid)) =
      Except.ok ((i :: xs).map (nwidByte nwid))
    rw [u8_pair_hex _ _ hha hhb, List.map_cons, harith]

theorem hexDigitValD_lt (x : Nat) : (hexDigitVal? x).getD 0 < 16 := by
  unfold hexDigitVal?
  split
  · simp; omega
  · split
    · simp; omega
    · split
      · simp; omega
      · simp

theorem nwidByte_lt (nwid : RStr) (j : Nat) : nwidByte nwid j < 256 := by
  unfold nwidByte
  have h1 := hexDigitValD_lt (nwid.getD (2 * j) 0)
  have h2 := hexDigitValD_lt (nwid.getD (2 * j + 1) 0)
  omega

theorem toHex2_ascii (n : Nat) (h : n < 256) : allAscii (toHex2 n) = true := by
  have h1 : n / 16 < 16 := by omega
  have h2 : n % 16 < 16 := Nat.mod_lt n (by omega)
  simp only [toHex2, allAscii, hexDigitChar, List.all_cons, List.all_nil,
    Bool.and_true, Bool.and_eq_true, decide_eq_true_eq]
  constructor <;> split <;> omega

theorem allAscii_flatten (l : List RStr) (h : ∀ s ∈ l, allAscii s = true) :
    allAscii l.flatten = true := by
  rw [allAscii, List.all_eq_true]
  intro x hx
  rw [List.mem_flatten] at hx
  obtain ⟨s, hs, hxs⟩ := hx
  have := List.all_eq_true.mp (h s hs) x hxs
  simpa using this

/-! ## C5: Derivation A (rfc4193_address) -/

/-- C5: for every 16-hex-character network identifier and 10-hex-character
member identifier, Derivation A returns (without panicking) the
concatenation of the fixed two-character sequence fd, the 16 network-id
characters, the fixed four-character sequence 9993, and the 10 member-id
characters, formatted as 8 colon-separated groups of 4 hex characters.  The
function is pure, so the output at any fixed input (in particular the
spec's test vector, see the witness) is the same on every invocation. -/
theorem rfc4193_spec (nwid node : RStr)
    (h16 : nwid.length = 16) (h10 : node.length = 10)
    (hx : allHex nwid = true) (hy : allHex node = true)
    (m : ControllerMember) (hmn : m.nwid = some nwid)
    (hma : m.address.or m.id = some node) :
    m.rfc4193_address =
      Except.ok (some (List.intercalate (asciiB ":")
        ((List.range 8).map (fun i =>
          ((asciiB "fd" ++ nwid ++ asciiB "9993" ++ node).drop (i * 4)).take 4)))) := by
  have hfd : allAscii (asciiB "fd") = true := by decide
  have h99 : allAscii (asciiB "9993") = true := by decide
  have hfa : allAscii (asciiB "fd" ++ nwid ++ asciiB "9993" ++ node) = true := by
    simp [allAscii_append, hfd, h99, allAscii_of_allHex _ hx, allAscii_of_allHex _ hy]
  have l1 : (asciiB "fd").length = 2 := rfl
  have l2 : (asciiB "9993").length = 4 := rfl
  have hflen : (asciiB "fd" ++ nwid ++ asciiB "9993" ++ node).length = 32 := by
    simp [List.length_append, l1, l2, h16, h10]
  unfold ControllerMember.rfc4193_address
  simp only [hmn, hma]
  rw [if_neg (by simp [h16, h10])]
  rw [groups_ok _ hfa hflen]

/-- C5 witness: Derivation A at the spec's test vector produces its fixed
grouped output. -/
theorem rfc4193_spec_witness :
    ControllerMember.rfc4193_address
        { emptyMember with
          nwid := some (asciiB "8056c2e21c000001")
          address := some (asciiB "0123456789") } =
      Except.ok (some (asciiB "fd80:56c2:e21c:0000:0199:9301:2345:6789")) := by
  rw [rfc4193_spec (asciiB "8056c2e21c000001") (asciiB "0123456789")
    (by decide) (by decide) (by decide) (by decide)
    { emptyMember with
      nwid := some (asciiB "8056c2e21c000001")
      address := some (asciiB "0123456789") } rfl rfl]
  decide

/-! ## C6: Derivation B (sixplane_address) -/

/-- C6: for every 16-hex-character network identifier and 10-hex-character
member identifier, Derivation B parses the network id as 8 bytes, XORs byte
i with byte i+4 for i in 0..4, and returns (without panicking) the
concatenation of the fixed sequence fc, the digest's hex, the member id and
the fixed suffix 000000000001, formatted as 8 colon-separated groups. -/
theorem sixplane_spec (nwid node : RStr)
    (h16 : nwid.length = 16) (h10 : node.length = 10)
    (hx : allHex nwid = true) (hy : allHex node = true)
    (m : ControllerMember) (hmn : m.nwid = some nwid)
    (hma : m.address.or m.id = some node) :
    m.sixplane_address =
      Except.ok (some (List.intercalate (asciiB ":")
        ((List.range 8).map (fun i =>
          ((asciiB "fc" ++
              ((List.range 4).map (fun j =>
                toHex2 (nwidByte nwid j ^^^ nwidByte nwid (j + 4)))).flatten ++
              node ++ asciiB "000000000001").drop (i * 4)).take 4)))) := by
  have hgetD : ∀ i : Nat, i < 8 →
      ((List.range 8).map (nwidByte nwid)).getD i 0 = nwidByte nwid i := by
    intro i hi
    rw [List.getD_eq_getElem _ _ (by simpa using hi), List.getElem_map, List.getElem_range]
  have hxored : ((List.range 4).map (fun j =>
        toHex2 ((((List.range 8).map (nwidByte nwid)).getD j 0) ^^^
          (((List.range 8).map (nwidByte nwid)).getD (j + 4) 0)))) =
      ((List.range 4).map (fun j =>
        toHex2 (nwidByte nwid j ^^^ nwidByte nwid (j + 4)))) := by
    apply List.map_congr_left
    intro j hj
    have hj4 : j < 4 := List.mem_range.mp hj
    rw [hgetD j (by omega), hgetD (j + 4) (by omega)]
  have hflat_ascii : allAscii (((List.range 4).map (fun j =>
      toHex2 (nwidByte nwid j ^^^ nwidByte nwid (j + 4)))).flatten) = true := by
    apply allAscii_flatten
    intro s hs
    rw [List.mem_map] at hs
    obtain ⟨j, _, rfl⟩ := hs
    exact toHex2_ascii _ (Nat.xor_lt_two_pow (n := 8) (nwidByte_lt nwid j)
      (nwidByte_lt nwid (j + 4)))
  have hflat_len : (((List.range 4).map (fun j =>
      toHex2 (nwidByte nwid j ^^^ nwidByte nwid (j + 4)))).flatten).length = 8 := by
    rw [List.length_flatten, List.map_map]
    have : (List.range 4) = [0, 1, 2, 3] := by decide
    rw [this]
    simp [toHex2]
  have hfc : allAscii (asciiB "fc") = true := by decide
  have hsuf : allAscii (asciiB "000000000001") = true := by decide
  have hfull_ascii : allAscii (asciiB "fc" ++
      ((List.range 4).map (fun j =>
        toHex2 (nwidByte nwid j ^^^ nwidByte nwid (j + 4)))).flatten ++
      node ++ asciiB "000000000001") = true := by
    simp [allAscii_append, hfc, hsuf, hflat_ascii, allAscii_of_allHex _ hy]
  have hfull_len : (asciiB "fc" ++
      ((List.range 4).map (fun j =>
        toHex2 (nwidByte nwid j ^^^ nwidByte nwid (j + 4)))).flatten ++
      node ++ asciiB "000000000001").length = 32 := by
    have lfc : (asciiB "fc").length = 2 := rfl
    have lsuf : (asciiB "000000000001").length = 12 := rfl
    simp [List.length_append, lfc, lsuf, hflat_len, h10]
  unfold ControllerMember.sixplane_address
  simp only [hmn, hma]
  rw [if_neg (by simp [h16, h10])]
  rw [parse_fold_hex nwid h16 hx (List.range 8)
    (fun i hi => by have := List.mem_range.mp hi; omega)]
  have hlen8 : ((List.range 8).map (nwidByte nwid)).length = 8 := by simp
  show (if ((List.range 8).map (nwidByte nwid)).length ≠ 8 then
      Except.ok (ε := Unit) (α := Option RStr) none
    else _) = _
  rw [if_neg (by simp [hlen8])]
  simp only [hxored]
  rw [groups_ok _ hfull_ascii hfull_len]

/-- C6 witness: Derivation B at the spec's test vector produces its fixed
grouped output. -/
theorem sixplane_spec_witness :
    ControllerMember.sixplane_address
        { emptyMember with
          nwid := some (asciiB "8056c2e21c000001")
          address := some (asciiB "0123456789") } =
      Except.ok (some (asciiB "fc9c:56c2:e301:2345:6789:0000:0000:0001")) := by
  rw [sixplane_spec (asciiB "8056c2e21c000001") (asciiB "0123456789")
    (by decide) (by decide) (by decide) (by decide)
    { emptyMember with
      nwid := some (asciiB "8056c2e21c000001")
      address := some (asciiB "0123456789") } rfl rfl]
  decide

/-! ## C7: panic behaviour of the derivations -/

theorem u8FromStrRadix16_lt (s : RStr) (v : Nat)
    (h : u8FromStrRadix16 s = some v) : v < 256 := by
  unfold u8FromStrRadix16 at h
  split at h
  · split at h
    · split at h
      · rename_i hv
        cases h
        exact hv
      · cases h
    · cases h
  · split at h
    · cases h
      omega
    · cases h
  · split at h
    · split at h
      · rename_i hv
        cases h
        exact hv
      · cases h
    · cases h

/-- Expansion of the parse loop in `sixplane_address` over arbitrary ASCII
input: it never panics and yields only byte-sized values. -/
theorem parse_fold_ascii (nwid : RStr) (h16 : nwid.length = 16)
    (hascii : allAscii nwid = true) :
    ∀ l : List Nat, (∀ i ∈ l, i * 2 + 2 ≤ 16) →
      ∃ bs : List Nat,
        (l.foldr (fun i acc => do
            let s ← strSlice nwid (i * 2) (i * 2 + 2)
            let rest ← acc
            pure (match u8FromStrRadix16 s with
              | some v => v :: rest
              | none => rest)) (Except.ok [])) = Except.ok bs ∧
        ∀ v ∈ bs, v < 256 := by
  intro l
  induction l with
  | nil => intro _; exact ⟨[], rfl, by simp⟩
  | cons i xs ih =>
    intro hb
    obtain ⟨bs, hbs, hlt⟩ := ih (fun j hj => hb j (by simp [hj]))
    have hi : i * 2 + 2 ≤ 16 := hb i (by simp)
    simp only [List.foldr_cons]
    rw [hbs, strSlice_ascii nwid hascii (i * 2) (i * 2 + 2) (by omega) (by omega)]
    refine ⟨(match u8FromStrRadix16 ((nwid.drop (i * 2)).take (i * 2 + 2 - i * 2)) with
      | some v => v :: bs
      | none => bs), rfl, ?_⟩
    intro w hw
    cases hu : u8FromStrRadix16 ((nwid.drop (i * 2)).take (i * 2 + 2 - i * 2)) with
    | none =>
      rw [hu] at hw
      exact hlt w hw
    | some v =>
      rw [hu] at hw
      have hw' : w ∈ v :: bs := hw
      rcases List.mem_cons.mp hw' with h | h
      · subst h
        exact u8FromStrRadix16_lt _ _ hu
      · exact hlt w h

theorem flatten_toHex2_length (g : Nat → Nat) :
    (((List.range 4).map (fun j => toHex2 (g j))).flatten).length = 8 := by
  rw [List.length_flatten, List.map_map]
  have h4 : (List.range 4) = [0, 1, 2, 3] := by decide
  rw [h4]
  simp [toHex2]

theorem flatten_toHex2_ascii (g : Nat → Nat) (h : ∀ j, g j < 256) :
    allAscii (((List.range 4).map (fun j => toHex2 (g j))).flatten) = true := by
  apply allAscii_flatten
  intro s hs
  rw [List.mem_map] at hs
  obtain ⟨j, _, rfl⟩ := hs
  exact toHex2_ascii _ (h j)

/-- C7 counterexample: a member whose network id has byte length 16 but
begins with a three-byte UTF-8 character makes Derivation A panic (slice
bound inside a character), so the claim "never a panic, for any content"
is false even though both length checks pass. -/
theorem rfc4193_panics_on_non_ascii :
    mC7.nwid = some ([226, 130, 172] ++ asciiB "0123456789123") ∧
    ([226, 130, 172] ++ asciiB "0123456789123").length = 16 ∧
    mC7.address = some (asciiB "0123456789") ∧
    (asciiB "0123456789").length = 10 ∧
    mC7.rfc4193_address = Except.error () := by
  decide

/-- C7 (amended): on identifiers made of single-byte (ASCII) characters the
two derivations never panic, and a missing identifier or a wrong byte
length yields None (not computable); Derivation B may additionally yield
None when the network id does not parse as 8 hex byte pairs.  On non-ASCII
identifiers of the right byte length the grouping step can panic on a
mid-character slice. -/
theorem derivations_no_panic (m : ControllerMember)
    (hn : ∀ s, m.nwid = some s → allAscii s = true)
    (ha : ∀ s, m.address = some s → allAscii s = true)
    (hid : ∀ s, m.id = some s → allAscii s = true) :
    (m.rfc4193_address).isOk = true ∧ (m.sixplane_address).isOk = true ∧
    (∀ nwid node, m.nwid = some nwid → m.address.or m.id = some node →
      nwid.length ≠ 16 ∨ node.length ≠ 10 →
      m.rfc4193_address = Except.ok none ∧ m.sixplane_address = Except.ok none) := by
  cases hmn : m.nwid with
  | none =>
    refine ⟨?_, ?_, ?_⟩
    · unfold ControllerMember.rfc4193_address
      rw [hmn]
      rfl
    · unfold ControllerMember.sixplane_address
      rw [hmn]
      rfl
    · intro nwid node h1 _ _
      cases h1
  | some nwid =>
    have hnw : allAscii nwid = true := hn nwid hmn
    cases hmo : m.address.or m.id with
    | none =>
      refine ⟨?_, ?_, ?_⟩
      · unfold ControllerMember.rfc4193_address
        rw [hmn, hmo]
        rfl
      · unfold ControllerMember.sixplane_address
        rw [hmn, hmo]
        rfl
      · intro nwid' node h1 h2 _
        cases h2
    | some node =>
      have hnode : allAscii node = true := by
        rcases Option.or_eq_some.mp hmo with h | ⟨_, h⟩
        · exact ha node h
        · exact hid node h
      refine ⟨?_, ?_, ?_⟩
      · by_cases hlen : nwid.length ≠ 16 ∨ node.length ≠ 10
        · unfold ControllerMember.rfc4193_address
          simp only [hmn, hmo]
          simp only [if_pos hlen]
          rfl
        · push_neg at hlen
          obtain ⟨h16, h10⟩ := hlen
          unfold ControllerMember.rfc4193_address
          simp only [hmn, hmo]
          rw [if_neg (by simp [h16, h10])]
          have hfa : allAscii (asciiB "fd" ++ nwid ++ asciiB "9993" ++ node) = true := by
            have hfd : allAscii (asciiB "fd") = true := by decide
            have h99 : allAscii (asciiB "9993") = true := by decide
            simp [allAscii_append, hfd, h99, hnw, hnode]
          have hflen : (asciiB "fd" ++ nwid ++ asciiB "9993" ++ node).length = 32 := by
            have l1 : (asciiB "fd").length = 2 := rfl
            have l2 : (asciiB "9993").length = 4 := rfl
            simp [List.length_append, l1, l2, h16, h10]
          rw [groups_ok _ hfa hflen]
          rfl
      · by_cases hlen : nwid.length ≠ 16 ∨ node.length ≠ 10
        · unfold ControllerMember.sixplane_address
          simp only [hmn, hmo]
          simp only [if_pos hlen]
          rfl
        · push_neg at hlen
          obtain ⟨h16, h10⟩ := hlen
          obtain ⟨bs, hbs, hblt⟩ := parse_fold_ascii nwid h16 hnw (List.range 8)
            (fun i hi => by have := List.mem_range.mp hi; omega)
          unfold ControllerMember.sixplane_address
          simp only [hmn, hmo]
          rw [if_neg (by simp [h16, h10])]
          rw [hbs]
          by_cases hb8 : bs.length ≠ 8
          · simp only [if_pos hb8]
            rfl
          · simp only [if_neg hb8]
            have hgd : ∀ i : Nat, bs.getD i 0 < 256 := by
              intro i
              by_cases hib : i < bs.length
              · rw [List.getD_eq_getElem _ _ hib]
                exact hblt _ (List.getElem_mem hib)
              · rw [List.getD_eq_default _ _ (by omega)]
                omega
            have hfa : allAscii (asciiB "fc" ++
                ((List.range 4).map (fun j =>
                  toHex2 ((bs.getD j 0) ^^^ (bs.getD (j + 4) 0)))).flatten ++
                node ++ asciiB "000000000001") = true := by
              have hfc : allAscii (asciiB "fc") = true := by decide
              have hsuf : allAscii (asciiB "000000000001") = true := by decide
              have hx := flatten_toHex2_ascii (fun j => (bs.getD j 0) ^^^ (bs.getD (j + 4) 0))
                (fun j => Nat.xor_lt_two_pow (n := 8) (hgd j) (hgd (j + 4)))
              simp only [allAscii_append, Bool.and_eq_true]
              exact ⟨⟨⟨hfc, hx⟩, hnode⟩, hsuf⟩
            have hflen : (asciiB "fc" ++
                ((List.range 4).map (fun j =>
                  toHex2 ((bs.getD j 0) ^^^ (bs.getD (j + 4) 0)))).flatten ++
                node ++ asciiB "000000000001").length = 32 := by
              have lfc : (asciiB "fc").length = 2 := rfl
              have lsuf : (asciiB "000000000001").length = 12 := rfl
              have hf := flatten_toHex2_length (fun j => (bs.getD j 0) ^^^ (bs.getD (j + 4) 0))
              simp only [List.length_append, lfc, lsuf, hf, h10]
            rw [groups_ok _ hfa hflen]
            rfl
      · intro nwid' node' h1 h2 h3
        cases h1
        cases h2
        constructor
        · unfold ControllerMember.rfc4193_address
          simp only [hmn, hmo]
          simp only [if_pos h3]
        · unfold ControllerMember.sixplane_address
          simp only [hmn, hmo]
          simp only [if_pos h3]

/-- C7 witness: the spec's wrong-length example (a nine-character member
id) yields None from both derivations, with no panic. -/
theorem derivations_no_panic_witness :
    ControllerMember.rfc4193_address mC7short = Except.ok none ∧
    ControllerMember.sixplane_address mC7short = Except.ok none := by
  exact (derivations_no_panic mC7short
      (fun s hs => by cases hs; decide)
      (fun s hs => by cases hs; decide)
      (fun s hs => by cases hs)).2.2
    (asciiB "8056c2e21c000001") (asciiB "012345678") rfl rfl (by decide)

/-! ## Poller loop lemmas -/

theorem pollStep_foldl_networks (r : RemoteCycle) :
    ∀ (ids : List RStr) (ns : List ControllerNetwork) (mm : MemberMap),
      (ids.foldl (pollStep r) (ns, mm)).1 =
        ns ++ ids.filterMap (fun n =>
          if r.networkJoin n then (r.networkBody n).toOption else none) := by
  intro ids
  induction ids with
  | nil => intro ns mm; simp
  | cons x xs ih =>
    intro ns mm
    simp only [List.foldl_cons, List.filterMap_cons]
    by_cases hj : r.networkJoin x
    · cases hb : r.networkBody x with
      | ok nw =>
        have hstep : pollStep r (ns, mm) x =
            (ns ++ [nw], mapInsert x (memberListOf r x) mm) := by
          simp [pollStep, hj, fetch_network, hb, memberListOf]
        rw [hstep, ih]
        simp [hj, hb, Except.toOption, List.append_assoc]
      | error e =>
        have hstep : pollStep r (ns, mm) x =
            (ns, mapInsert x (memberListOf r x) mm) := by
          simp [pollStep, hj, fetch_network, hb, memberListOf]
        rw [hstep, ih]
        simp [hj, hb, Except.toOption]
    · have hstep : pollStep r (ns, mm) x = (ns, mm) := by
        simp [pollStep, hj]
      rw [hstep, ih]
      simp [hj]

theorem pollStep_foldl_lookup (r : RemoteCycle) (n : RStr) :
    ∀ (ids : List RStr) (acc : List ControllerNetwork × MemberMap),
      mapLookup n (ids.foldl (pollStep r) acc).2 =
        if n ∈ ids.filter (fun x => r.networkJoin x) then some (memberListOf r n)
        else mapLookup n acc.2 := by
  intro ids
  induction ids with
  | nil => intro acc; simp
  | cons x xs ih =>
    intro acc
    rw [List.foldl_cons, ih]
    by_cases hj : r.networkJoin x
    · have hfc : (x :: xs).filter (fun x => r.networkJoin x) =
          x :: xs.filter (fun x => r.networkJoin x) := by
        simp [List.filter_cons, hj]
      have hstep : (pollStep r acc x).2 = (x, memberListOf r x) :: acc.2 := by
        simp [pollStep, hj, mapInsert, memberListOf, fetch_network]
      rw [hfc, hstep]
      by_cases hmem : n ∈ xs.filter (fun x => r.networkJoin x)
      · simp [hmem, List.mem_cons_of_mem]
      · simp only [if_neg hmem]
        by_cases hxn : x = n
        · subst hxn
          simp [mapLookup]
        · have hne : ¬ n = x := fun hc => hxn hc.symm
          simp [mapLookup, hxn, hne, hmem, List.mem_cons]
    · have hfc : (x :: xs).filter (fun x => r.networkJoin x) =
          xs.filter (fun x => r.networkJoin x) := by
        simp [List.filter_cons, hj]
      have hstep : (pollStep r acc x).2 = acc.2 := by
        simp [pollStep, hj]
      rw [hfc, hstep]

theorem memberStep_foldl_length (r : RemoteCycle) (nwid : RStr) :
    ∀ (ids : List RStr) (acc : List ControllerMember),
      (ids.foldl (memberStep r nwid) acc).length =
        acc.length + ids.countP (fun mid =>
          r.memberJoin nwid mid && (r.memberBody nwid mid).isOk) := by
  intro ids
  induction ids with
  | nil => intro acc; simp
  | cons x xs ih =>
    intro acc
    rw [List.foldl_cons, ih, List.countP_cons]
    by_cases hj : r.memberJoin nwid x
    · cases hb : r.memberBody nwid x with
      | ok m =>
        simp [memberStep, hj, hb, Except.isOk, Except.toBool]
        omega
      | error e =>
        simp [memberStep, hj, hb, Except.isOk, Except.toBool]
    · simp [memberStep, hj]

/-- Shared sortedness fact: the member list computed by `fetch_network` is
pairwise ordered by the `display_id` comparator. -/
theorem fetchMembers_sorted (r : RemoteCycle) (nwid : RStr) :
    List.Pairwise (fun a b => memberLe a b = true) (fetch_network r nwid).2.2 := by
  unfold fetch_network
  cases h : r.memberIds nwid with
  | ok ids =>
    simp only [h]
    exact List.sorted_mergeSort memberLe_trans memberLe_total _
  | error e =>
    simp only [h]
    exact List.Pairwise.nil

/-! ## C4: member-list sort invariant -/

/-- C4 counterexample: a network with two members that both lack the
`address` and `id` fields (so both have member identifier `unknown`) yields
a stored member list that is NOT strictly sorted by member identifier. -/
theorem fetch_network_not_strictly_sorted :
    ¬ List.Pairwise (fun a b => bytesLt a.display_id b.display_id = true)
        (fetch_network rC4 (asciiB "netX")).2.2 := by
  have hfold : [asciiB "m0", asciiB "m1"].foldl (memberStep rC4 (asciiB "netX")) [] =
      [{ emptyMember with authorized := some true },
       { emptyMember with authorized := some false }] := by decide
  have hfe : (fetch_network rC4 (asciiB "netX")).2.2 =
      [{ emptyMember with authorized := some true },
       { emptyMember with authorized := some false }] := by
    show ([asciiB "m0", asciiB "m1"].foldl (memberStep rC4 (asciiB "netX")) []).mergeSort
        memberLe = _
    rw [hfold]
    exact List.mergeSort_of_sorted (by decide)
  rw [hfe]
  decide

/-- C4 (amended): for every network and every set of member fetch results,
regardless of the order the member ids were listed or completed in, the
stored member list is sorted in non-decreasing order by member identifier
(strict sortedness can fail only between members with equal identifiers,
e.g. two members both displaying as unknown). -/
theorem fetch_network_sorted (r : RemoteCycle) (nwid : RStr) :
    List.Pairwise (fun a b => bytesLe a.display_id b.display_id = true)
      (fetch_network r nwid).2.2 :=
  fetchMembers_sorted r nwid

/-! ## Bridging poll_once to its loop -/

theorem poll_once_pair (r : RemoteCycle) (t : Nat) :
    (poll_once r t).controller_networks = ((okIds r).foldl (pollStep r) ([], [])).1 ∧
    (poll_once r t).controller_members = ((okIds r).foldl (pollStep r) ([], [])).2 := by
  unfold poll_once okIds
  cases hn : r.networkIdsRes with
  | ok ids =>
    cases ids with
    | nil => simp
    | cons x xs => simp
  | error e => simp

/-! ## C1: member-enumeration failure leaves an empty entry -/

/-- C1 counterexample: when the member-id enumeration for network net1
fails, the network identifier is PRESENT in the new snapshot's member map,
mapped to the empty list, contradicting the claim that it is absent. -/
theorem member_map_not_absent_on_enum_failure :
    rC1.memberIds (asciiB "net1") = Except.error (asciiB "memfail") ∧
    (asciiB "net1") ∈ okIds rC1 ∧
    mapLookup (asciiB "net1") (poll_once rC1 0).controller_members = some [] := by
  decide

/-- C1 (amended): if a network's member-id enumeration call fails mid-cycle
(and its task joins), the new snapshot's member map maps that network
identifier to the empty member list - fresh, never stale, and the member
count is effectively zero. -/
theorem member_enumeration_failure_empty (r : RemoteCycle) (t : Nat) (nwid e : RStr)
    (hin : nwid ∈ okIds r) (hjoin : r.networkJoin nwid = true)
    (henum : r.memberIds nwid = Except.error e) :
    mapLookup nwid (poll_once r t).controller_members = some [] := by
  obtain ⟨_, h2⟩ := poll_once_pair r t
  rw [h2, pollStep_foldl_lookup]
  rw [if_pos (List.mem_filter.mpr ⟨hin, hjoin⟩)]
  unfold memberListOf fetch_network
  simp [henum]

/-- C1 witness: the amended statement at the concrete failing cycle. -/
theorem member_enumeration_failure_empty_witness :
    mapLookup (asciiB "net1") (poll_once rC1 0).controller_members = some [] :=
  member_enumeration_failure_empty rC1 0 (asciiB "net1") (asciiB "memfail")
    (by decide) (by decide) (by decide)

/-! ## C2: candidate snapshot assembly -/

/-- C2: the candidate network list is exactly the bodies of the enumerated
networks whose task joined and whose body fetch succeeded (in enumeration
order), while the member map has an entry (possibly empty) for every
enumerated network whose task joined - including those whose body fetch
failed, so the member map can hold keys with no corresponding network. -/
theorem snapshot_assembly (r : RemoteCycle) (t : Nat) :
    (poll_once r t).controller_networks =
      (okIds r).filterMap (fun n =>
        if r.networkJoin n then (r.networkBody n).toOption else none) ∧
    ∀ n : RStr, mapLookup n (poll_once r t).controller_members =
      if n ∈ (okIds r).filter (fun x => r.networkJoin x)
      then some (memberListOf r n) else none := by
  obtain ⟨h1, h2⟩ := poll_once_pair r t
  constructor
  · rw [h1, pollStep_foldl_networks]
    simp
  · intro n
    rw [h2, pollStep_foldl_lookup]
    rfl

/-! ## C3: no-op cycle -/

/-- C3 counterexample: over an unchanged remote state, two consecutive
cycles produce snapshots that are NOT structurally equal - the last-updated
timestamp differs. -/
theorem snapshots_differ_in_timestamp :
    poll_once rC3 0 ≠ poll_once rC3 1 := by
  decide

/-- C3 (amended): over an unchanged remote state, the second cycle's
candidate snapshot equals the first on every compared field (status, error,
network list, member map) - differing only in the last-updated timestamp -
and no change notification is published on any of the three axes. -/
theorem noop_cycle_no_events (r : RemoteCycle) (t1 t2 : Nat) :
    (poll_once r t2).status = (poll_once r t1).status ∧
    (poll_once r t2).error = (poll_once r t1).error ∧
    (poll_once r t2).controller_networks = (poll_once r t1).controller_networks ∧
    (poll_once r t2).controller_members = (poll_once r t1).controller_members ∧
    cycleEvents (poll_once r t1) (poll_once r t2) = [] := by
  refine ⟨rfl, rfl, rfl, rfl, ?_⟩
  simp [cycleEvents, poll_once]

/-! ## C8: cycle-level error policy -/

/-- C8: a failed status call records its error string in the cycle-level
error field and leaves status absent without aborting the cycle (networks
and members are computed independently of the status outcome); a failed
network-id listing yields zero networks and an empty member map and is not
recorded in the cycle-level error field (the error field is independent of
the listing outcome). -/
theorem cycle_error_policy (r : RemoteCycle) (t : Nat) :
    (∀ e, r.statusRes = Except.error e →
      (poll_once r t).error = some e ∧ (poll_once r t).status = none) ∧
    (∀ s1 s2 : Except RStr NodeStatus,
      (poll_once { r with statusRes := s1 } t).controller_networks =
        (poll_once { r with statusRes := s2 } t).controller_networks ∧
      (poll_once { r with statusRes := s1 } t).controller_members =
        (poll_once { r with statusRes := s2 } t).controller_members) ∧
    (∀ e, r.networkIdsRes = Except.error e →
      (poll_once r t).controller_networks = [] ∧
      (poll_once r t).controller_members = []) ∧
    (∀ n1 n2 : Except RStr (List RStr),
      (poll_once { r with networkIdsRes := n1 } t).error =
        (poll_once { r with networkIdsRes := n2 } t).error) := by
  refine ⟨?_, ?_, ?_, ?_⟩
  · intro e he
    unfold poll_once
    simp [he]
  · intro s1 s2
    exact ⟨rfl, rfl⟩
  · intro e he
    unfold poll_once
    simp [he]
  · intro n1 n2
    rfl

/-- C8 witness: the policy at a concrete cycle whose status call and
network-id listing both fail. -/
theorem cycle_error_policy_witness :
    (poll_once rC8 0).error = some (asciiB "status down") ∧
    (poll_once rC8 0).status = none ∧
    (poll_once rC8 0).controller_networks = [] ∧
    (poll_once rC8 0).controller_members = [] := by
  have h := cycle_error_policy rC8 0
  obtain ⟨h1, h2⟩ := h.1 (asciiB "status down") rfl
  obtain ⟨h3, h4⟩ := h.2.2.1 (asciiB "controller off") rfl
  exact ⟨h1, h2, h3, h4⟩

/-! ## C9: partial member-fetch failure isolation -/

/-- C9: if a network enumerates N member ids, all member tasks join, and
exactly one member-body fetch fails, the stored member list has N-1 entries
(the failed member is simply omitted), and the cycle still completes,
storing the computed member list for every joined network. -/
theorem member_failure_isolated (r : RemoteCycle) (t : Nat) (nwid : RStr)
    (ids : List RStr)
    (hids : r.memberIds nwid = Except.ok ids)
    (hjoin : ∀ mid ∈ ids, r.memberJoin nwid mid = true)
    (hfail : ids.countP (fun mid => !(r.memberBody nwid mid).isOk) = 1) :
    (fetch_network r nwid).2.2.length = ids.length - 1 ∧
    ∀ n ∈ okIds r, r.networkJoin n = true →
      mapLookup n (poll_once r t).controller_members = some (memberListOf r n) := by
  constructor
  · unfold fetch_network
    simp only [hids]
    rw [List.length_mergeSort, memberStep_foldl_length]
    have hcong : ids.countP (fun mid =>
        r.memberJoin nwid mid && (r.memberBody nwid mid).isOk) =
        ids.countP (fun mid => (r.memberBody nwid mid).isOk) := by
      apply List.countP_congr
      intro x hx
      simp [hjoin x hx]
    rw [hcong]
    have hsplit := List.length_eq_countP_add_countP
      (fun mid => (r.memberBody nwid mid).isOk) ids
    have hfail' : ids.countP (fun a => decide ¬((r.memberBody nwid a).isOk = true)) = 1 := by
      rw [← hfail]
      apply List.countP_congr
      intro x hx
      simp
    simp only [hfail'] at hsplit
    rw [List.length_nil, hsplit]
    omega
  · intro n hn hjn
    obtain ⟨_, h2⟩ := poll_once_pair r t
    rw [h2, pollStep_foldl_lookup]
    rw [if_pos (List.mem_filter.mpr ⟨hn, hjn⟩)]

/-- C9 witness: with three enumerated members of which exactly one body
fetch fails, the stored member list has two entries. -/
theorem member_failure_isolated_witness :
    (fetch_network rC9 (asciiB "netN")).2.2.length = 2 := by
  have h := member_failure_isolated rC9 0 (asciiB "netN")
    [asciiB "ma", asciiB "mb", asciiB "mc"] rfl (by decide) (by decide)
  exact h.1

/-! ## C10: the member identifier (display_id) -/

/-- C10: the member identifier is the address field when present, else the
id field, else the literal unknown; two members lacking both fields have
equal identifiers; the stored member lists are ordered by exactly this
identifier; and both address derivations depend on the member only through
this identifier (plugging the identifier in for the node gives the same
result, since the unknown fallback fails the 10-character length check
exactly when the fields are absent). -/
theorem display_id_semantics :
    (∀ m : ControllerMember, m.address = none → m.id = none →
      m.display_id = asciiB "unknown") ∧
    (∀ m1 m2 : ControllerMember, m1.address = none → m1.id = none →
      m2.address = none → m2.id = none → m1.display_id = m2.display_id) ∧
    (∀ m : ControllerMember,
      m.rfc4193_address = rfc4193_of m.nwid (some m.display_id) ∧
      m.sixplane_address = sixplane_of m.nwid (some m.display_id)) ∧
    (∀ (r : RemoteCycle) (nwid : RStr),
      List.Pairwise (fun a b => bytesLe a.display_id b.display_id = true)
        (fetch_network r nwid).2.2) := by
  refine ⟨?_, ?_, ?_, ?_⟩
  · intro m h1 h2
    unfold ControllerMember.display_id
    rw [h1, h2]
    rfl
  · intro m1 m2 h1 h2 h3 h4
    unfold ControllerMember.display_id
    rw [h1, h2, h3, h4]
  · intro m
    cases hor : m.address.or m.id with
    | some node =>
      have hd : m.display_id = node := by
        simp [ControllerMember.display_id, hor]
      rw [hd]
      constructor
      · unfold ControllerMember.rfc4193_address rfc4193_of
        cases hmn : m.nwid <;> simp only [hmn, hor]
      · unfold ControllerMember.sixplane_address sixplane_of
        cases hmn : m.nwid <;> simp only [hmn, hor]
    | none =>
      have hd : m.display_id = asciiB "unknown" := by
        simp [ControllerMember.display_id, hor]
      rw [hd]
      constructor
      · unfold ControllerMember.rfc4193_address rfc4193_of
        cases hmn : m.nwid with
        | none => simp only [hmn]
        | some nwid =>
          simp only [hmn, hor]
          rw [if_pos (Or.inr (by decide))]
      · unfold ControllerMember.sixplane_address sixplane_of
        cases hmn : m.nwid with
        | none => simp only [hmn]
        | some nwid =>
          simp only [hmn, hor]
          rw [if_pos (Or.inr (by decide))]
  · exact fun r nwid => fetchMembers_sorted r nwid

/-- C10 witness: the fallback identifier of the all-absent member. -/
theorem display_id_semantics_witness :
    ControllerMember.display_id emptyMember = asciiB "unknown" :=
  display_id_semantics.1 emptyMember rfl rfl

end TierDrop
